import Mathlib

/-!
Shallow embedding of the maestro-express adapter
(`src/index.ts`, `src/transformRequest/TransformRequest.ts`, and the
`Adapter` class), together with proofs checking the specification's
claims about it.  JavaScript objects are modelled as association lists,
the live express `Response` handle as an explicit record of the
mutations performed on it, and the adapter instance as a record of its
mutable fields.
-/

/-- A JSON-like payload value (bodies and command payload leaves). -/
inductive Value where
  | null
  | bool (b : Bool)
  | num (n : Int)
  | str (s : String)
  | obj (fields : List (String × Value))

/-- A header value: express accepts both strings and numbers
(`setHeader('X-Exit-Code', exitCode)` passes a number). -/
inductive HVal where
  | str (s : String)
  | num (n : Int)
deriving DecidableEq

/-- The adapter's name, `Adapter.ADAPTER_NAME = "Express"`. -/
def Adapter.ADAPTER_NAME : String := "Express"

/-- Model of the live express `Response` handle: the record of mutations
the adapter performs on it (headers and cookies set, status code, body
sent).  Fields the adapter never touches are elided. -/
structure ResponseState where
  headers : List (String × HVal)
  cookies : List (String × String)
  status : Option Nat
  sent : Option Value

/-- The untouched response handle. -/
def emptyResponse : ResponseState := ⟨[], [], none, none⟩

/-- `response.setHeader(name, value)`: sets (replacing any previous
value of) the named header. -/
def ResponseState.setHeader (st : ResponseState) (n : String) (v : HVal) : ResponseState :=
  { st with headers := (n, v) :: st.headers.filter (fun p => p.1 != n) }

/-- `response.cookie(name, value, options)`: registers a cookie
(attribute options are carried opaquely by the command payload and not
inspected by any claim, so they are elided here). -/
def ResponseState.setCookie (st : ResponseState) (n v : String) : ResponseState :=
  { st with cookies := (n, v) :: st.cookies.filter (fun p => p.1 != n) }

/-- `response.status(code)`. -/
def ResponseState.setStatus (st : ResponseState) (s : Nat) : ResponseState :=
  { st with status := some s }

/-- `response.send(body)`: writes the body, terminating the response. -/
def ResponseState.send (st : ResponseState) (v : Value) : ResponseState :=
  { st with sent := some v }

/-- Value of a named header on the response, if set. -/
def headerValue (st : ResponseState) (n : String) : Option HVal :=
  st.headers.lookup n

/-- The `adapters` field of an `ICommand`: in the JavaScript source it
may be absent (`null`/`undefined`), a single adapter-name string, or an
array of adapter names — the code tests all three shapes
(`== null`, `=== Adapter.ADAPTER_NAME`, `Array.isArray`). -/
inductive AdaptersField where
  | undef
  | str (s : String)
  | arr (names : List String)
deriving DecidableEq

/-- An `ICommand`: name, optional adapters restriction, payload.  The
payload is a name/value mapping, which is what both registered commands
(`setHeader`, `setCookie`) iterate over. -/
structure Command where
  name : String
  adapters : AdaptersField
  payload : List (String × String)

/-- The `Commands` registry (`src/commands/Commands.ts`): a fixed map
from command name to a handler acting on the response with the
command's payload.  `setHeader` sets each entry as a header; `setCookie`
registers each entry as a cookie. -/
def Commands (name : String) :
    Option (ResponseState → List (String × String) → ResponseState) :=
  if name = "setHeader" then
    some (fun st ps => ps.foldl (fun s p => s.setHeader p.1 (HVal.str p.2)) st)
  else if name = "setCookie" then
    some (fun st ps => ps.foldl (fun s p => s.setCookie p.1 p.2) st)
  else
    none

/-- The argument of `applyCommandsToResponse`: `ICommand | ICommand[]`,
where an array may itself contain arrays (the function recurses). -/
inductive CommandTree where
  | cmd (c : Command)
  | list (cs : List CommandTree)

/-- The single-command branch of `applyCommandsToResponse`
(src/index.ts lines 46-62), translated guard by guard:
if `adapters` is an array not containing `ADAPTER_NAME`, return the
response untouched; then, if `adapters` is nullish or is (strict
equality) the string `ADAPTER_NAME`, look the name up in the registry
and run the handler when found.  Note a command whose `adapters` is an
array containing `ADAPTER_NAME` passes the first guard but fails the
second (`===` between an array and a string is false), so no handler
runs for it. -/
def applySingleCommand (response : ResponseState) (c : Command) : ResponseState :=
  if (match c.adapters with
      | AdaptersField.arr names => !(names.contains Adapter.ADAPTER_NAME)
      | _ => false) then
    response
  else if (match c.adapters with
      | AdaptersField.undef => true
      | AdaptersField.str s => s = Adapter.ADAPTER_NAME
      | AdaptersField.arr _ => false) then
    match Commands c.name with
    | some handler => handler response c.payload
    | none => response
  else
    response

/-- `applyCommandsToResponse(response, commands)` (src/index.ts lines
40-63): an array is processed element by element (recursively, so
nested arrays flatten); a single command goes through
`applySingleCommand`. -/
def applyCommandsToResponse (response : ResponseState) : CommandTree → ResponseState
  | CommandTree.cmd c => applySingleCommand response c
  | CommandTree.list [] => response
  | CommandTree.list (t :: ts) =>
      applyCommandsToResponse (applyCommandsToResponse response t) (CommandTree.list ts)

/-- The commands contained in a command tree, in traversal order. -/
def flattenCommands : CommandTree → List Command
  | CommandTree.cmd c => [c]
  | CommandTree.list [] => []
  | CommandTree.list (t :: ts) => flattenCommands t ++ flattenCommands (CommandTree.list ts)

/-- An `IApiRouteResponse`: payload, optional commands, exit code,
status. -/
structure RouteResponse where
  payload : Value
  commands : Option CommandTree
  exitCode : Int
  status : Nat

/-- `SendResponse(routeResp, response)` (src/index.ts lines 20-38):
apply the commands when present, set the `X-Exit-Code` header from the
exit code, set the status, send the payload. -/
def SendResponse (routeResp : RouteResponse) (response : ResponseState) : ResponseState :=
  let send := routeResp.payload
  let response :=
    match routeResp.commands with
    | some cmds => applyCommandsToResponse response cmds
    | none => response
  let response := response.setHeader "X-Exit-Code" (HVal.num routeResp.exitCode)
  (response.setStatus routeResp.status).send send

/-- The error argument of `ErrorHandler`: either an `ApiError` (carrying
an HTTP status and a message — the `instanceof ApiError` branch) or any
other error value (`ApiException`, plain `Error`, ...), carried
opaquely. -/
inductive AdapterError where
  | api (httpStatus : Nat) (message : String)
  | other (tag : String)
deriving DecidableEq

/-- `ErrorHandler(response, next, error)` (src/errorHandler): on an
`ApiError`, set its status and send `{error: message}`; otherwise call
`next(error)`.  The returned pair is the mutated response handle
together with the argument `next` was invoked with, if it was. -/
def ErrorHandler (response : ResponseState) (error : AdapterError) :
    ResponseState × Option AdapterError :=
  match error with
  | AdapterError.api s m =>
      ((response.setStatus s).send (Value.obj [("error", Value.str m)]), none)
  | AdapterError.other t => (response, some (AdapterError.other t))

/-- An HTTP method tag, the `HTTPMethod` union handled by the
`addRouteToHttpMethod` switch. -/
inductive HTTPMethod where
  | all
  | get
  | search
  | post
  | put
  | patch
  | delete
  | head
  | options
  | connect
  | trace
deriving DecidableEq

/-- The `methods` field of an `IProxiedRoute`:
`HTTPMethod | HTTPMethod[]`. -/
inductive MethodsField where
  | single (m : HTTPMethod)
  | many (ms : List HTTPMethod)
deriving DecidableEq

/-- The normalization performed in `loadRoutesFromContainers`: a single
method becomes a one-element array. -/
def methodsList : MethodsField → List HTTPMethod
  | MethodsField.single m => [m]
  | MethodsField.many ms => ms

/-- An `IProxiedRoute` (Route Descriptor): URL pattern plus method tags.
The `id` field stands for JavaScript object identity: the source
de-duplicates routes with `Array.prototype.includes`, i.e. reference
equality, which the model renders as equality of these records. -/
structure ProxiedRoute where
  id : Nat
  url : String
  methods : MethodsField
deriving DecidableEq

/-- The source's parameter-source tags:
`'header' | 'cookie' | 'body' | 'query' | 'url'`. -/
inductive ParamSource where
  | header
  | cookie
  | body
  | query
  | url
deriving DecidableEq

/-- A raw express `Request`, reduced to the parts the adapter reads:
the original URL, the client address chain (`request.ips`), and the
five parameter collections, each an association list (values are
carried opaquely as strings — the adapter never inspects them). -/
structure RawRequest where
  originalUrl : String
  ips : List String
  headers : List (String × String)
  cookies : List (String × String)
  body : List (String × String)
  query : List (String × String)
  params : List (String × String)

/-- Modelled from the spec: the Canonical Request Model (`RouteRequest`
from the external maestro core, whose source is not part of this
repository) — adapter name, original URL, identification string,
method tag, and a parameter bag in which every entry carries its
source tag. -/
structure RouteRequest where
  adapter : String
  url : String
  identification : String
  method : Option HTTPMethod
  params : List (String × String × ParamSource)

/-- Modelled from the spec: `RouteRequest.add(name, value, source)`
(maestro core, not in this repository) stores the parameter in the bag
under the given source tag. -/
def RouteRequest.add (r : RouteRequest) (n v : String) (s : ParamSource) : RouteRequest :=
  { r with params := r.params ++ [(n, v, s)] }

/-- One of the `for (let name in collection) req.add(name, value, tag)`
loops of `TransformRequest`, over an association-list collection. -/
def addParams (r : RouteRequest) (ps : List (String × String)) (s : ParamSource) : RouteRequest :=
  ps.foldl (fun acc p => acc.add p.1 p.2 s) r

/-- JavaScript string concatenation with a possibly-undefined operand:
`"x" + undefined` coerces `undefined` to the string `"undefined"`. -/
def jsPlusString : Option String → String
  | some s => s
  | none => "undefined"

/-- The JavaScript nullish-coalescing operator on a string-valued left
operand. -/
def nullishCoalesce (x : Option String) (fallback : String) : String :=
  x.getD fallback

/-- The identification expression of `TransformRequest`
(TransformRequest.ts lines 10-12):
`request.ips.join(' - ') + " | " + request.headers["user-agent"] ?? "UA-NOT-PROVIDED"`.
JavaScript gives `+` higher precedence than `??`, so it parses as
`(ips.join(' - ') + " | " + ua) ?? "UA-NOT-PROVIDED"`; the left operand
is a string (string concatenation coerces an undefined header to
`"undefined"`), hence never nullish, and the fallback is dead. -/
def requestIdentification (request : RawRequest) : String :=
  nullishCoalesce
    (some (String.intercalate " - " request.ips ++ " | "
      ++ jsPlusString (request.headers.lookup "user-agent")))
    "UA-NOT-PROVIDED"

/-- The identification string as the specification words it: the chain
joined by " - ", then " | ", then the user-agent header when present
and the fixed sentinel when absent.  Stated for comparison with
`requestIdentification`, which embeds the source. -/
def specIdentification (request : RawRequest) : String :=
  String.intercalate " - " request.ips ++ " | "
    ++ (request.headers.lookup "user-agent").getD "UA-NOT-PROVIDED"

/-- `TransformRequest(request)` (TransformRequest.ts): build the
canonical request, set its identification, then copy headers, cookies,
body fields, query parameters and URL parameters into the bag, each
under its own source tag, in that order. -/
def TransformRequest (request : RawRequest) : RouteRequest :=
  let req : RouteRequest :=
    { adapter := Adapter.ADAPTER_NAME, url := request.originalUrl,
      identification := "", method := none, params := [] }
  let req := { req with identification := requestIdentification request }
  let req := addParams req request.headers ParamSource.header
  let req := addParams req request.cookies ParamSource.cookie
  let req := addParams req request.body ParamSource.body
  let req := addParams req request.query ParamSource.query
  let req := addParams req request.params ParamSource.url
  req

/-- The raw collection of a given source tag. -/
def sourceCollection (request : RawRequest) : ParamSource → List (String × String)
  | ParamSource.header => request.headers
  | ParamSource.cookie => request.cookies
  | ParamSource.body => request.body
  | ParamSource.query => request.query
  | ParamSource.url => request.params

/-- The mutable fields of the `Adapter` class instance that the claims
touch: the containers added, the `_loadedRoutes` list, the bindings
registered on the express application (`express.get(url, ...)` etc.,
recorded in call order), the `_booted` and `_started` flags, and
counters for `express.listen` and `Server.close` calls (standing for
the `_server` handle).  The port, the express middleware and the event
emissions are elided. -/
structure AdapterState where
  containers : List (List ProxiedRoute)
  loadedRoutes : List ProxiedRoute
  bindings : List (HTTPMethod × String)
  booted : Bool
  started : Bool
  listens : Nat
  closeCalls : Nat

/-- The URL computation of `addRouteToHttpMethod` (part_000 lines
328-335): `route.url.trim().charAt(0) !== '/'` — `charAt(0)` of the
empty string is `""`, which also differs from `'/'`, so an empty
trimmed URL gets the slash too. -/
def charAt0 (s : String) : Option Char :=
  s.data.head?

/-- The bound URL: trimmed, with a leading slash added when the first
character of the trimmed URL is not already `/`. -/
def normalizeUrl (url : String) : String :=
  if !(charAt0 url.trim == some '/') then "/" ++ url.trim else url.trim

/-- The URL transformation as the claim words it: surrounding
whitespace trimmed; a `/` prepended exactly when the trimmed URL does
not already begin with `/`. -/
def trimThenSlash (url : String) : String :=
  let t := url.trim
  if t.data.head? = some '/' then t else "/" ++ t

/-- One express registration call (`express.get(url, handler)`, ...):
appends the (method, url) pair to the application's route table. -/
def expressBind (st : AdapterState) (m : HTTPMethod) (url : String) : AdapterState :=
  { st with bindings := st.bindings ++ [(m, url)] }

/-- `addRouteToHttpMethod(method, route)` (part_000 lines 328-408):
compute the URL, then switch on the method, each case calling the
like-named express registration with the URL and the per-request
orchestration handler (event emissions elided). -/
def addRouteToHttpMethod (method : HTTPMethod) (route : ProxiedRoute)
    (st : AdapterState) : AdapterState :=
  let url := normalizeUrl route.url
  match method with
  | HTTPMethod.all => expressBind st HTTPMethod.all url
  | HTTPMethod.get => expressBind st HTTPMethod.get url
  | HTTPMethod.search => expressBind st HTTPMethod.search url
  | HTTPMethod.post => expressBind st HTTPMethod.post url
  | HTTPMethod.put => expressBind st HTTPMethod.put url
  | HTTPMethod.patch => expressBind st HTTPMethod.patch url
  | HTTPMethod.delete => expressBind st HTTPMethod.delete url
  | HTTPMethod.head => expressBind st HTTPMethod.head url
  | HTTPMethod.options => expressBind st HTTPMethod.options url
  | HTTPMethod.connect => expressBind st HTTPMethod.connect url
  | HTTPMethod.trace => expressBind st HTTPMethod.trace url

/-- The body of the inner loop of `loadRoutesFromContainers` (part_000
lines 292-315): skip a route already in `_loadedRoutes` (reference
equality); otherwise normalize its methods to a list, bind each method,
and push the route onto `_loadedRoutes`. -/
def loadRoute (st : AdapterState) (route : ProxiedRoute) : AdapterState :=
  if route ∈ st.loadedRoutes then
    st
  else
    let methods := methodsList route.methods
    let st := methods.foldl (fun s m => addRouteToHttpMethod m route s) st
    { st with loadedRoutes := st.loadedRoutes ++ [route] }

/-- `loadRoutesFromContainers(containers)` (part_000 lines 286-317):
for each container, for each of its routes (`container.allRoutes()`,
modelled as the list itself), run the loading step. -/
def loadRoutesFromContainers (st : AdapterState) (containers : List (List ProxiedRoute)) :
    AdapterState :=
  containers.foldl (fun s c => c.foldl loadRoute s) st

/-- `boot()` (part_000 lines 259-275): a no-op when already booted;
otherwise wire middleware (elided), load the routes of all known
containers, and set the booted flag. -/
def Adapter.boot (st : AdapterState) : AdapterState :=
  if st.booted then st
  else { loadRoutesFromContainers st st.containers with booted := true }

/-- `start()` (part_000 lines 423-427): boot, create the server
(`express.listen`), set the started flag. -/
def Adapter.start (st : AdapterState) : AdapterState :=
  let st := Adapter.boot st
  let st := { st with listens := st.listens + 1 }
  { st with started := true }

/-- `stop()` (part_000 lines 429-434): only when started, close the
server and clear the started flag; otherwise do nothing. -/
def Adapter.stop (st : AdapterState) : AdapterState :=
  if st.started then { st with closeCalls := st.closeCalls + 1, started := false }
  else st

/-- One iteration of the `loadedRoutes()` loop:
`loaded[route.url] = route`, an insert-or-overwrite on a map keyed by
the URL string. -/
def assignRoute (loaded : String → Option ProxiedRoute) (route : ProxiedRoute) :
    String → Option ProxiedRoute :=
  fun u => if u = route.url then some route else loaded u

/-- `loadedRoutes()` (part_000 lines 436-442): build a fresh map and
assign every loaded route under its URL, in registration order.  The
resulting JavaScript object is modelled by its lookup function. -/
def loadedRoutes (st : AdapterState) : String → Option ProxiedRoute :=
  st.loadedRoutes.foldl assignRoute (fun _ => none)

/-- The configuration error raised by `_requestHandler` when no api
handler is set: `new RequestFlowNotDefined('Express adapter does not
have an associated api request handler')`.  The maestro error class is
not part of this repository; it is carried as an opaque non-ApiError
value. -/
def requestFlowNotDefined : AdapterError :=
  AdapterError.other
    "RequestFlowNotDefined: Express adapter does not have an associated api request handler"

/-- Observable steps of the per-request orchestration, in the order
they are performed. -/
inductive ReqEvent where
  | errorReported (e : AdapterError)
  | requestErrorEmitted (e : AdapterError)
  | normalized (r : RouteRequest)
  | handlerInvocationAttempted (handlerPresent : Bool)

/-- `_requestHandler` (part_000 lines 124-162) as the trace of its
observable steps: when `_apiHandler` is not a function, report the
`RequestFlowNotDefined` error through the error handler and emit the
request-error event — and then fall through regardless: transform the
request, stamp the method on it, and invoke `_apiHandler` (a call that
throws at runtime when the handler is absent, since `undefined` is not
callable). -/
def requestHandler (hasApiHandler : Bool) (method : HTTPMethod) (request : RawRequest) :
    List ReqEvent :=
  (if hasApiHandler then []
   else [ReqEvent.errorReported requestFlowNotDefined,
         ReqEvent.requestErrorEmitted requestFlowNotDefined])
  ++ [ReqEvent.normalized { TransformRequest request with method := some method }]
  ++ [ReqEvent.handlerInvocationAttempted hasApiHandler]

/-- A raw request from `1.2.3.4` carrying no `user-agent` header. -/
def noUARequest : RawRequest :=
  { originalUrl := "/a", ips := ["1.2.3.4"], headers := [], cookies := [],
    body := [], query := [], params := [] }

/-- The canonical response of the specification's worked example:
exit code 7, status 200, payload `{ok: true}`, no commands. -/
def exampleRouteResponse : RouteResponse :=
  { payload := Value.obj [("ok", Value.bool true)], commands := none,
    exitCode := 7, status := 200 }

/-- A route descriptor registered at URL `/a`. -/
def exampleRouteA : ProxiedRoute :=
  { id := 1, url := "/a", methods := MethodsField.single HTTPMethod.get }

/-- A second, distinct route descriptor sharing the URL `/a`. -/
def exampleRouteB : ProxiedRoute :=
  { id := 2, url := "/a", methods := MethodsField.single HTTPMethod.post }

/-- An adapter that has registered `exampleRouteA` and then
`exampleRouteB`. -/
def twoRouteState : AdapterState :=
  { containers := [], loadedRoutes := [exampleRouteA, exampleRouteB], bindings := [],
    booted := false, started := false, listens := 0, closeCalls := 0 }

/-- Setting a header makes it present with that value. -/
theorem headerValue_setHeader (st : ResponseState) (n : String) (v : HVal) :
    headerValue (st.setHeader n v) n = some v := by
  simp [headerValue, ResponseState.setHeader, List.lookup]

/-- The recursive command walk equals a left fold of the single-command
step over the flattened command list. -/
theorem applyCommandsToResponse_eq_foldl :
    (t : CommandTree) → (st : ResponseState) →
      applyCommandsToResponse st t = (flattenCommands t).foldl applySingleCommand st
  | CommandTree.cmd c, st => by simp [applyCommandsToResponse, flattenCommands]
  | CommandTree.list [], st => by simp [applyCommandsToResponse, flattenCommands]
  | CommandTree.list (t :: ts), st => by
      rw [applyCommandsToResponse, flattenCommands, List.foldl_append,
        applyCommandsToResponse_eq_foldl t st,
        applyCommandsToResponse_eq_foldl (CommandTree.list ts)]

/-- Every branch of the method switch records one binding at the
normalized URL. -/
theorem addRouteToHttpMethod_eq (m : HTTPMethod) (r : ProxiedRoute) (st : AdapterState) :
    addRouteToHttpMethod m r st
      = { st with bindings := st.bindings ++ [(m, normalizeUrl r.url)] } := by
  cases m <;> rfl

/-- The `charAt(0)` test of the source coincides with the trim-then-
prepend description. -/
theorem normalizeUrl_eq_trimThenSlash (s : String) : normalizeUrl s = trimThenSlash s := by
  by_cases h : s.trim.data.head? = some '/' <;>
    simp [normalizeUrl, trimThenSlash, charAt0, h]

theorem foldl_addRoute_eq (r : ProxiedRoute) :
    ∀ (l : List HTTPMethod) (st : AdapterState),
      l.foldl (fun s m => addRouteToHttpMethod m r s) st
        = { st with bindings := st.bindings ++ l.map (fun m => (m, normalizeUrl r.url)) } := by
  intro l
  induction l with
  | nil => intro st; simp
  | cons m ms ih =>
      intro st
      rw [List.foldl_cons, addRouteToHttpMethod_eq, ih]
      simp

theorem loadRoute_eq (st : AdapterState) (r : ProxiedRoute) :
    loadRoute st r
      = if r ∈ st.loadedRoutes then st
        else { st with
          bindings := st.bindings ++ (methodsList r.methods).map (fun m => (m, normalizeUrl r.url)),
          loadedRoutes := st.loadedRoutes ++ [r] } := by
  by_cases h : r ∈ st.loadedRoutes <;> simp [loadRoute, h, foldl_addRoute_eq]

theorem loadRoute_shape (st : AdapterState) (r : ProxiedRoute) :
    ∃ b l, loadRoute st r = { st with bindings := b, loadedRoutes := l } := by
  rw [loadRoute_eq]
  by_cases h : r ∈ st.loadedRoutes
  · exact ⟨st.bindings, st.loadedRoutes, by simp [h]⟩
  · refine ⟨st.bindings ++ (methodsList r.methods).map (fun m => (m, normalizeUrl r.url)),
      st.loadedRoutes ++ [r], ?_⟩
    simp [h]

theorem foldlRoute_shape :
    ∀ (c : List ProxiedRoute) (st : AdapterState),
      ∃ b l, c.foldl loadRoute st = { st with bindings := b, loadedRoutes := l } := by
  intro c
  induction c with
  | nil => intro st; exact ⟨st.bindings, st.loadedRoutes, by simp⟩
  | cons r c ih =>
      intro st
      rw [List.foldl_cons]
      obtain ⟨b0, l0, h0⟩ := loadRoute_shape st r
      obtain ⟨b, l, h⟩ := ih (loadRoute st r)
      exact ⟨b, l, by rw [h, h0]⟩

theorem loadContainers_shape :
    ∀ (cs : List (List ProxiedRoute)) (st : AdapterState),
      ∃ b l, loadRoutesFromContainers st cs = { st with bindings := b, loadedRoutes := l } := by
  intro cs
  induction cs with
  | nil => intro st; exact ⟨st.bindings, st.loadedRoutes, by simp [loadRoutesFromContainers]⟩
  | cons c cs ih =>
      intro st
      rw [loadRoutesFromContainers, List.foldl_cons]
      obtain ⟨b0, l0, h0⟩ := foldlRoute_shape c st
      obtain ⟨b, l, h⟩ := ih (c.foldl loadRoute st)
      rw [loadRoutesFromContainers] at h
      exact ⟨b, l, by rw [h, h0]⟩

theorem boot_closeCalls (st : AdapterState) : (Adapter.boot st).closeCalls = st.closeCalls := by
  rw [Adapter.boot]
  by_cases h : st.booted
  · simp [h]
  · obtain ⟨b, l, hs⟩ := loadContainers_shape st.containers st
    simp [h, hs]

theorem boot_started (st : AdapterState) : (Adapter.boot st).started = st.started := by
  rw [Adapter.boot]
  by_cases h : st.booted
  · simp [h]
  · obtain ⟨b, l, hs⟩ := loadContainers_shape st.containers st
    simp [h, hs]

theorem start_started (st : AdapterState) : (Adapter.start st).started = true := rfl

theorem start_closeCalls (st : AdapterState) :
    (Adapter.start st).closeCalls = st.closeCalls := by
  show (Adapter.boot st).closeCalls = st.closeCalls
  exact boot_closeCalls st

theorem addParams_params :
    ∀ (ps : List (String × String)) (r : RouteRequest) (s : ParamSource),
      (addParams r ps s).params = r.params ++ ps.map (fun p => (p.1, p.2, s)) := by
  intro ps
  induction ps with
  | nil => intro r s; simp [addParams]
  | cons p ps ih =>
      intro r s
      have h : addParams r (p :: ps) s = addParams (r.add p.1 p.2 s) ps s := rfl
      rw [h, ih]
      simp [RouteRequest.add]

theorem TransformRequest_params (request : RawRequest) :
    (TransformRequest request).params
      = request.headers.map (fun p => (p.1, p.2, ParamSource.header))
        ++ request.cookies.map (fun p => (p.1, p.2, ParamSource.cookie))
        ++ request.body.map (fun p => (p.1, p.2, ParamSource.body))
        ++ request.query.map (fun p => (p.1, p.2, ParamSource.query))
        ++ request.params.map (fun p => (p.1, p.2, ParamSource.url)) := by
  simp [TransformRequest, addParams_params]

theorem loadedRoutes_foldl :
    ∀ (l : List ProxiedRoute) (base : String → Option ProxiedRoute) (u : String),
      (l.foldl assignRoute base) u
        = (l.reverse.find? (fun r => r.url == u)).or (base u) := by
  intro l
  induction l with
  | nil => intro base u; simp
  | cons r l ih =>
      intro base u
      rw [List.foldl_cons, ih, List.reverse_cons, List.find?_append]
      cases hf : l.reverse.find? (fun r => r.url == u) with
      | some x => simp [hf]
      | none =>
          by_cases hu : r.url = u
          · have hb : (r.url == u) = true := by simp [hu]
            simp [hf, assignRoute, List.find?, hb, hu]
          · have hb : (r.url == u) = false := by simp [hu]
            have hne : u ≠ r.url := fun h => hu h.symm
            simp [hf, assignRoute, List.find?, hb, hne]

theorem loadRoute_mem_mono (st : AdapterState) (r x : ProxiedRoute)
    (hx : x ∈ st.loadedRoutes) : x ∈ (loadRoute st r).loadedRoutes := by
  rw [loadRoute_eq]
  by_cases h : r ∈ st.loadedRoutes <;> simp [h, hx]

theorem loadRoute_self_mem (st : AdapterState) (r : ProxiedRoute) :
    r ∈ (loadRoute st r).loadedRoutes := by
  rw [loadRoute_eq]
  by_cases h : r ∈ st.loadedRoutes <;> simp [h]

theorem foldlRoute_mem_mono :
    ∀ (c : List ProxiedRoute) (st : AdapterState) (x : ProxiedRoute),
      x ∈ st.loadedRoutes → x ∈ (c.foldl loadRoute st).loadedRoutes := by
  intro c
  induction c with
  | nil => intro st x hx; simpa using hx
  | cons r c ih =>
      intro st x hx
      rw [List.foldl_cons]
      exact ih _ _ (loadRoute_mem_mono _ _ _ hx)

theorem foldlRoute_all_mem :
    ∀ (c : List ProxiedRoute) (st : AdapterState) (r : ProxiedRoute),
      r ∈ c → r ∈ (c.foldl loadRoute st).loadedRoutes := by
  intro c
  induction c with
  | nil => intro st r h; simp at h
  | cons a c ih =>
      intro st r h
      rw [List.foldl_cons]
      rcases List.mem_cons.mp h with h1 | h2
      · subst h1
        exact foldlRoute_mem_mono c _ _ (loadRoute_self_mem st r)
      · exact ih _ _ h2

theorem loadContainers_mem_mono :
    ∀ (cs : List (List ProxiedRoute)) (st : AdapterState) (x : ProxiedRoute),
      x ∈ st.loadedRoutes → x ∈ (loadRoutesFromContainers st cs).loadedRoutes := by
  intro cs
  induction cs with
  | nil => intro st x hx; simpa [loadRoutesFromContainers] using hx
  | cons c cs ih =>
      intro st x hx
      rw [loadRoutesFromContainers, List.foldl_cons]
      exact ih _ _ (foldlRoute_mem_mono c st x hx)

theorem loadContainers_all_mem :
    ∀ (cs : List (List ProxiedRoute)) (st : AdapterState) (c : List ProxiedRoute)
      (r : ProxiedRoute), c ∈ cs → r ∈ c →
      r ∈ (loadRoutesFromContainers st cs).loadedRoutes := by
  intro cs
  induction cs with
  | nil => intro st c r hc _; simp at hc
  | cons c0 cs ih =>
      intro st c r hc hr
      rw [loadRoutesFromContainers, List.foldl_cons]
      rcases List.mem_cons.mp hc with h1 | h2
      · subst h1
        exact loadContainers_mem_mono cs _ _ (foldlRoute_all_mem c st r hr)
      · exact ih _ c r h2 hr

theorem loadRoute_already (st : AdapterState) (r : ProxiedRoute)
    (h : r ∈ st.loadedRoutes) : loadRoute st r = st := by
  simp [loadRoute, h]

theorem foldlRoute_already :
    ∀ (c : List ProxiedRoute) (st : AdapterState),
      (∀ r ∈ c, r ∈ st.loadedRoutes) → c.foldl loadRoute st = st := by
  intro c
  induction c with
  | nil => intro st _; rfl
  | cons a c ih =>
      intro st h
      rw [List.foldl_cons, loadRoute_already st a (h a (List.mem_cons_self a c))]
      exact ih st (fun r hr => h r (List.mem_cons_of_mem a hr))

theorem loadContainers_already :
    ∀ (cs : List (List ProxiedRoute)) (st : AdapterState),
      (∀ c ∈ cs, ∀ r ∈ c, r ∈ st.loadedRoutes) → loadRoutesFromContainers st cs = st := by
  intro cs
  induction cs with
  | nil => intro st _; rfl
  | cons c cs ih =>
      intro st h
      rw [loadRoutesFromContainers, List.foldl_cons,
        foldlRoute_already c st (h c (List.mem_cons_self c cs))]
      exact ih st (fun c' hc' => h c' (List.mem_cons_of_mem c hc'))

/-- C1.  The claim says a command whose `adapters` field is present and
explicitly names this adapter has its registry handler invoked.  The
code does not do this for an adapters array: a `setHeader` command with
`adapters = ["Express"]` leaves the response untouched (first
conjunct), although running the handler is observable — the same
command with `adapters` absent sets the header (second conjunct).  The
skip half of the claim does hold: an array not naming Express leaves
the response untouched (third conjunct).  The array passes the
not-includes guard but fails the strict-equality-with-string guard, so
the handler call is unreachable for arrays, contradicting the source's
own comments and `Adapter.CreateCookie`, which builds commands with
`adapters: [Adapter.ADAPTER_NAME]`. -/
theorem applyCommand_adapter_array_express :
    applySingleCommand emptyResponse
      { name := "setHeader", adapters := AdaptersField.arr ["Express"],
        payload := [("X-Test", "1")] } = emptyResponse
    ∧ applySingleCommand emptyResponse
        { name := "setHeader", adapters := AdaptersField.undef,
          payload := [("X-Test", "1")] }
        = { headers := [("X-Test", HVal.str "1")], cookies := [], status := none, sent := none }
    ∧ applySingleCommand emptyResponse
        { name := "setHeader", adapters := AdaptersField.arr ["OtherAdapter"],
          payload := [("X-Test", "1")] } = emptyResponse := by
  exact ⟨rfl, rfl, rfl⟩

/-- C2.  The claim says a request without a user-agent header gets the
fixed "not provided" sentinel after the " | " separator.  The code
instead produces the string "undefined" there: `+` binds tighter than
`??`, so the sentinel `"UA-NOT-PROVIDED"` written in the source is
dead code and JavaScript string concatenation coerces the undefined
header.  On a request from 1.2.3.4 with no user-agent, the
identification is "1.2.3.4 | undefined", differing from the sentinel
reading (`specIdentification`). -/
theorem identification_missing_user_agent :
    requestIdentification noUARequest = "1.2.3.4 | undefined"
    ∧ (TransformRequest noUARequest).identification = "1.2.3.4 | undefined"
    ∧ specIdentification noUARequest = "1.2.3.4 | UA-NOT-PROVIDED"
    ∧ requestIdentification noUARequest ≠ specIdentification noUARequest := by
  refine ⟨by decide, by decide, by decide, by decide⟩

/-- C3.  `SendResponse` materializes a canonical response: the payload
is sent as the body, the transport status is set from the response's
status, the `X-Exit-Code` header carries the exit code whatever the
commands did, and when commands are present they are applied first —
nested command lists recursing into a flat left-to-right run of the
single-command step.  On the worked example (exit code 7, status 200,
payload `{ok: true}`) the outgoing response has status 200, the header
carrying 7, and the payload as body. -/
theorem sendResponse_materialization :
    (∀ (rr : RouteResponse) (st : ResponseState) (t : CommandTree),
      (SendResponse rr st).sent = some rr.payload
      ∧ (SendResponse rr st).status = some rr.status
      ∧ headerValue (SendResponse rr st) "X-Exit-Code" = some (HVal.num rr.exitCode)
      ∧ SendResponse { rr with commands := some t } st
          = SendResponse { rr with commands := none }
              ((flattenCommands t).foldl applySingleCommand st))
    ∧ SendResponse exampleRouteResponse emptyResponse
        = { headers := [("X-Exit-Code", HVal.num 7)], cookies := [], status := some 200,
            sent := some (Value.obj [("ok", Value.bool true)]) } := by
  constructor
  · intro rr st t
    refine ⟨rfl, rfl, ?_, ?_⟩
    · simp [SendResponse, ResponseState.send, ResponseState.setStatus]
      exact headerValue_setHeader _ _ _
    · simp [SendResponse, applyCommandsToResponse_eq_foldl]
  · rfl

/-- C4.  The error translator writes a recognized API error directly:
status from its `httpStatus`, body `{error: message}`, and the `next`
continuation is not invoked; any other error value is forwarded to
`next` with the response handle untouched. -/
theorem errorHandler_classification :
    ∀ (st : ResponseState) (s : Nat) (m : String) (t : String),
      ErrorHandler st (AdapterError.api s m)
        = ({ st with status := some s, sent := some (Value.obj [("error", Value.str m)]) }, none)
      ∧ ErrorHandler st (AdapterError.other t) = (st, some (AdapterError.other t)) := by
  intro st s m t
  exact ⟨rfl, rfl⟩

/-- C5.  Route registration is idempotent per descriptor: running
`loadRoutesFromContainers` a second time over the same containers — or
over a container list that repeats itself — changes nothing: the
express bindings and the `_loadedRoutes` list (hence the size of the
`loadedRoutes()` index) are exactly those of the single run, each
method of each fresh descriptor having been bound once by that run. -/
theorem loadRoutes_idempotent :
    ∀ (st : AdapterState) (containers : List (List ProxiedRoute)),
      loadRoutesFromContainers (loadRoutesFromContainers st containers) containers
        = loadRoutesFromContainers st containers
      ∧ loadRoutesFromContainers st (containers ++ containers)
        = loadRoutesFromContainers st containers := by
  intro st cs
  have h1 : loadRoutesFromContainers (loadRoutesFromContainers st cs) cs
      = loadRoutesFromContainers st cs :=
    loadContainers_already cs _ (fun c hc r hr => loadContainers_all_mem cs st c r hc hr)
  refine ⟨h1, ?_⟩
  show (cs ++ cs).foldl (fun s c => c.foldl loadRoute s) st = loadRoutesFromContainers st cs
  rw [List.foldl_append]
  exact h1

/-- C6.  With no business handler configured, the per-request
orchestration reports the `RequestFlowNotDefined` configuration error
through the error handler and emits the request-error event, and then
still continues: it normalizes the request (stamping the method) and
attempts to invoke the absent handler instead of stopping. -/
theorem requestHandler_missing_handler_continues :
    ∀ (method : HTTPMethod) (request : RawRequest),
      requestHandler false method request
        = [ReqEvent.errorReported requestFlowNotDefined,
           ReqEvent.requestErrorEmitted requestFlowNotDefined,
           ReqEvent.normalized { TransformRequest request with method := some method },
           ReqEvent.handlerInvocationAttempted false] := by
  intro method request
  rfl

/-- C7.  The canonical request's parameter bag contains `(n, v)` under
source tag `s` exactly when the raw request's collection for `s`
contains `(n, v)`: every header, cookie, body field, query parameter
and URL parameter lands under its own source tag, and nothing appears
under a tag it did not come from. -/
theorem transformRequest_param_sources :
    ∀ (request : RawRequest) (n v : String) (s : ParamSource),
      (n, v, s) ∈ (TransformRequest request).params ↔ (n, v) ∈ sourceCollection request s := by
  intro request n v s
  rw [TransformRequest_params]
  cases s <;> simp [sourceCollection, List.mem_append, List.mem_map, Prod.ext_iff]

/-- C8.  `stop()` on a non-started adapter changes nothing (the server
handle is not touched); after `start()` — which itself closes nothing —
`stop()` closes the server exactly once and clears the started flag,
and a second `stop()` is again a no-op. -/
theorem stop_lifecycle :
    ∀ st : AdapterState,
      Adapter.stop { st with started := false } = { st with started := false }
      ∧ (Adapter.stop (Adapter.start st)).started = false
      ∧ (Adapter.stop (Adapter.start st)).closeCalls = st.closeCalls + 1
      ∧ (Adapter.start st).closeCalls = st.closeCalls
      ∧ Adapter.stop (Adapter.stop (Adapter.start st)) = Adapter.stop (Adapter.start st) := by
  intro st
  have hstop : Adapter.stop (Adapter.start st)
      = { Adapter.start st with closeCalls := (Adapter.start st).closeCalls + 1, started := false } := by
    rw [Adapter.stop, start_started st]
    simp
  refine ⟨by simp [Adapter.stop], ?_, ?_, start_closeCalls st, ?_⟩
  · rw [hstop]
  · rw [hstop]; simp [start_closeCalls st]
  · rw [hstop, Adapter.stop]; simp

/-- C9.  `loadedRoutes()` is the URL-keyed map built by assigning every
registered route in registration order, so looking a URL up yields the
latest registered descriptor with that URL (the first match in the
reversed registration list); in particular with two descriptors sharing
`/a`, the map holds the later one. -/
theorem loadedRoutes_last_registration_wins :
    (∀ (st : AdapterState) (u : String),
      loadedRoutes st u = st.loadedRoutes.reverse.find? (fun r => r.url == u))
    ∧ loadedRoutes twoRouteState "/a" = some exampleRouteB := by
  constructor
  · intro st u
    rw [loadedRoutes, loadedRoutes_foldl]
    cases h : st.loadedRoutes.reverse.find? (fun r => r.url == u) <;> simp [h]
  · decide

/-- C10.  Every binding made by the method switch uses the descriptor's
URL trimmed of surrounding whitespace, with a leading `/` prepended
exactly when the trimmed URL does not already begin with `/`; nothing
else about the adapter state changes. -/
theorem bound_url_normalization :
    ∀ (m : HTTPMethod) (route : ProxiedRoute) (st : AdapterState),
      addRouteToHttpMethod m route st
        = { st with bindings := st.bindings ++ [(m, trimThenSlash route.url)] } := by
  intro m route st
  rw [addRouteToHttpMethod_eq, normalizeUrl_eq_trimThenSlash]
